import Mathlib

/-
  Verification development for the `foom` pending-message scanner
  (src/server.js). The JavaScript source is shallowly embedded below:
  pure string routines become Lean functions over `List Char` / `String`,
  the network calls become explicit outcome values passed in by the
  caller, and the per-request orchestration loop becomes a recursive
  function over the fetched message list.
-/

namespace Foom

/-! ## JavaScript value model

The raw records coming back from the explorer API are loosely typed.
For the fields the server probes with `||` chains we model a JS value as
either a string or a number, together with JS truthiness (`""` and `0`
are falsy).  Optional / absent fields are `Option`; `none` covers both
`undefined` and `null`. -/

inductive JSVal : Type
  | vStr : String → JSVal
  | vNum : Int → JSVal
deriving DecidableEq, Repr

def JSVal.truthy : JSVal → Bool
  | .vStr s => !s.isEmpty
  | .vNum n => n != 0

/-- Truthiness of an optional JS value (`undefined`/`null` are falsy). -/
def truthyJ : Option JSVal → Bool
  | some v => v.truthy
  | none => false

/-- Truthiness of an optional string-valued field. -/
def truthyS : Option String → Bool
  | some s => !s.isEmpty
  | none => false

/-- Truthiness of an optional character-list value. -/
def truthyL : Option (List Char) → Bool
  | some l => !l.isEmpty
  | none => false

/-- A JS `a || b || ... || null` chain over string-valued fields: the
first truthy value, else `none`.  (In the source the `txHash` chain has
no trailing `|| null`, but a falsy final value is immediately rejected
by `if(!txHash) continue`, so normalising falsy to `none` is
observationally identical.) -/
def probeS : List (Option String) → Option String
  | [] => none
  | o :: rest => if truthyS o then o else probeS rest

/-- A JS `a || b || ... || null` chain over loosely-typed fields. -/
def probeJ : List (Option JSVal) → Option JSVal
  | [] => none
  | o :: rest => if truthyJ o then o else probeJ rest

/-- ASCII `toUpperCase`, as applied by the server to executor status
strings (all statuses involved are ASCII, where JS `toUpperCase` agrees
with per-character ASCII uppercasing). -/
def strToUpper (s : String) : String :=
  ⟨s.data.map Char.toUpper⟩

/-! ## Hex heuristic extractor (`guessHexesFromText`, server.js:26-38)

The source scans the text with the global regex `/0x[0-9a-fA-F]{64,}/g`:
left to right, non-overlapping, each match greedy-maximal; then
deduplicates via `new Set` (first-seen order) and picks the first
candidate of length exactly 66 as `sender32` and the first of even
length `> 66` as `payload`. -/

def isHexDigit (c : Char) : Bool :=
  ('0' ≤ c && c ≤ '9') || ('a' ≤ c && c ≤ 'f') || ('A' ≤ c && c ≤ 'F')

/-- Length of the maximal run of hex digits at the head of the list
(the greedy `[0-9a-fA-F]{64,}` consumption). -/
def hexRun : List Char → Nat
  | [] => 0
  | c :: cs => if isHexDigit c then hexRun cs + 1 else 0

/-- The matches of `/0x[0-9a-fA-F]{64,}/g` on the text, in scan order.
At a position starting `0x`, the regex greedily takes the maximal hex
run; the match succeeds iff the run has length ≥ 64, and scanning
resumes after the match.  On failure the scan advances one position. -/
def scanHexesF : Nat → List Char → List (List Char)
  | 0, _ => []
  | _ + 1, [] => []
  | fuel + 1, c0 :: rest0 =>
      match rest0 with
      | c1 :: rest =>
        if c0 == '0' && c1 == 'x' && 64 ≤ hexRun rest then
          (c0 :: c1 :: rest.take (hexRun rest)) :: scanHexesF fuel (rest.drop (hexRun rest))
        else
          scanHexesF fuel rest0
      | [] => scanHexesF fuel rest0

/-- The scan with enough fuel: every step of `scanHexesF` shortens the
remaining text by at least one character, so `s.length` steps always
complete the scan. -/
def scanHexes (s : List Char) : List (List Char) :=
  scanHexesF s.length s

def dedupFirstAux (seen : List (List Char)) : List (List Char) → List (List Char)
  | [] => []
  | x :: xs => if x ∈ seen then dedupFirstAux seen xs else x :: dedupFirstAux (x :: seen) xs

/-- `[...new Set(hexes)]`: drop later duplicates, keep first-seen order. -/
def dedupFirst (l : List (List Char)) : List (List Char) :=
  dedupFirstAux [] l

structure HexGuess where
  sender32 : Option (List Char)
  payload : Option (List Char)
deriving DecidableEq, Repr

/-- server.js:26-38. `senders[0]` / `payloads[0]` guarded by a length
check is exactly `head?`. -/
def guessHexesFromText (text : List Char) : HexGuess :=
  let uniq := dedupFirst (scanHexes text)
  let senders := uniq.filter (fun h => h.length == 66)
  let payloads := uniq.filter (fun h => 66 < h.length && h.length % 2 == 0)
  { sender32 := senders.head?, payload := payloads.head? }

/-! ## Raw message records

A `RawMessage` carries exactly the optional fields server.js probes
(lines 76-98).  Statuses and transaction hashes are string-valued where
probed; `sender32`/`sender`, `payload`/`payloadHex`/`data` and the
`dstEid`/`dst_eid`/`dst` chain are loosely typed. -/

structure ExecutorResult where
  status : Option String := none
deriving DecidableEq, Repr

structure TxObj where
  txHash : Option String := none
deriving DecidableEq, Repr

structure RawMessage where
  executorResult : Option ExecutorResult := none
  executorStatus : Option String := none
  srcTxHash : Option String := none
  txHash : Option String := none
  tx : Option TxObj := none
  sender32 : Option JSVal := none
  sender : Option JSVal := none
  payload : Option JSVal := none
  payloadHex : Option JSVal := none
  data : Option JSVal := none
  dstEid : Option JSVal := none
  dst_eid : Option JSVal := none
  dst : Option JSVal := none
deriving DecidableEq, Repr

/-- server.js:76 — `(m?.executorResult?.status) || (m?.executorStatus) || null`. -/
def resolveExecStatus (m : RawMessage) : Option String :=
  probeS [m.executorResult.bind ExecutorResult.status, m.executorStatus]

/-- server.js:79 — `m.srcTxHash || m.txHash || m?.tx?.txHash`. -/
def resolveTxHash (m : RawMessage) : Option String :=
  probeS [m.srcTxHash, m.txHash, m.tx.bind TxObj.txHash]

/-- server.js:83 — `m.sender32 || m.sender || null`. -/
def resolveSender (m : RawMessage) : Option JSVal :=
  probeJ [m.sender32, m.sender]

/-- server.js:84 — `m.payload || m.payloadHex || m.data || null`. -/
def resolvePayload (m : RawMessage) : Option JSVal :=
  probeJ [m.payload, m.payloadHex, m.data]

/-- server.js:98 — `m.dstEid || m.dst_eid || m.dst || null`. -/
def resolveDstEid (m : RawMessage) : Option JSVal :=
  probeJ [m.dstEid, m.dst_eid, m.dst]

/-! ## Pending-message summaries and the per-message loop body -/

structure PendingMessageSummary where
  srcTxHash : String
  dstEid : Option JSVal
  sender32 : Option JSVal
  payload : Option JSVal
  statusSummary : String
  lzTxPage : String
deriving DecidableEq, Repr

/-- The object pushed at server.js:96-103 given the loop's local
variables at that point. -/
def mkSummary (txBase : String) (m : RawMessage) (txHash execStatus : String)
    (sender32 payload : Option JSVal) : PendingMessageSummary :=
  { srcTxHash := txHash
    dstEid := resolveDstEid m
    sender32 := sender32
    payload := payload
    statusSummary := execStatus
    lzTxPage := txBase ++ "/" ++ txHash }

/-- Result of one iteration of the loop at server.js:73-104:
`emitted` is the pushed summary (or `none` on `continue`), and
`fetchedDetail` records whether `fetchTxHtml` was invoked for this
record. -/
structure ProcessResult where
  emitted : Option PendingMessageSummary
  fetchedDetail : Bool
deriving DecidableEq, Repr

/-- server.js:91-92 — `if(!x && g.x) x = g.x;`: a still-unresolved
loop local is overwritten by a truthy heuristic candidate; an already
resolved one is kept. -/
def fillField (resolved : Option JSVal) (cand : Option (List Char)) : Option JSVal :=
  if resolved.isNone && truthyL cand then
    cand.map (fun h => JSVal.vStr h.asString)
  else resolved

/-- One iteration of the `/pending` loop body (server.js:73-104).
`fetchHtml` is the detail-document fetcher's observable behaviour for
this request: `fetchTxHtml` returns the page text, or `null` on any
non-success status or transport failure (server.js:53-62).  The three
exits below are the single `out.push` at line 96 with the loop locals
`sender32`/`payload` as mutated (or not) by the fallback block at
lines 87-94. -/
def processMessage (fetchHtml : String → Option String) (txBase : String)
    (m : RawMessage) : ProcessResult :=
  match resolveExecStatus m with
  | none => ⟨none, false⟩
  | some execStatus =>
    if strToUpper execStatus != "WAITING" then ⟨none, false⟩
    else
      match resolveTxHash m with
      | none => ⟨none, false⟩
      | some txHash =>
        let sender0 := resolveSender m
        let payload0 := resolvePayload m
        if sender0.isNone || payload0.isNone then
          match fetchHtml txHash with
          | some html =>
            let g := guessHexesFromText html.data
            ⟨some (mkSummary txBase m txHash execStatus
                (fillField sender0 g.sender32) (fillField payload0 g.payload)), true⟩
          | none =>
            ⟨some (mkSummary txBase m txHash execStatus sender0 payload0), true⟩
        else
          ⟨some (mkSummary txBase m txHash execStatus sender0 payload0), false⟩

/-- The `for(const m of msgs)` loop with `out.push` (server.js:71-104). -/
def pendingLoop (fetchHtml : String → Option String) (txBase : String) :
    List RawMessage → List PendingMessageSummary
  | [] => []
  | m :: rest =>
    match (processMessage fetchHtml txBase m).emitted with
    | some s => s :: pendingLoop fetchHtml txBase rest
    | none => pendingLoop fetchHtml txBase rest

/-! ## Message fetcher (`fetchMessagesByOwner`, server.js:40-51)

The outcome of the outbound HTTP call is explicit: either the fetch (or
the body's JSON parse) failed, or a response arrived with an ok/non-ok
status and, when parsed, an optional truthy `messages` array.
(`j.messages || []` treats a missing or falsy `messages` field as `[]`;
a present array, even empty, is truthy in JS and returned as-is.) -/

inductive APIOutcome : Type
  | transportError : APIOutcome
  | response (ok : Bool) (messages : Option (List RawMessage)) : APIOutcome
deriving DecidableEq, Repr

/-- The `try` block of server.js:41-46: a non-ok status throws
`LZ API ...`, a transport or parse failure has already thrown, otherwise
the body's `messages` array (or `[]`) is returned. -/
def fetchMessagesBody : APIOutcome → Except String (List RawMessage)
  | .transportError => .error "network failure"
  | .response ok msgs =>
    if !ok then .error "LZ API status" else .ok (msgs.getD [])

/-- server.js:40-51: the `catch` turns any thrown error into `[]` after
a warning log; the function never rethrows. -/
def fetchMessagesByOwner (o : APIOutcome) : List RawMessage :=
  match fetchMessagesBody o with
  | .ok msgs => msgs
  | .error _ => []

/-! ## The `/pending` handler (server.js:67-111) -/

inductive PendingResponse : Type
  | success (owner : String) (count : Nat) (results : List PendingMessageSummary) : PendingResponse
  | failure (error : String) : PendingResponse
deriving DecidableEq, Repr

/-- HTTP status code of a `/pending` response: `res.json` defaults to
200, the catch branch sets 500 (server.js:106,109). -/
def PendingResponse.status : PendingResponse → Nat
  | .success _ _ _ => 200
  | .failure _ => 500

/-- The `try`/`catch` wrapper of the handler: an `ok` orchestration
yields `{ ok:true, owner, count, results }`, a thrown error yields the
500 `{ ok:false, error }` response (server.js:106-110). -/
def pendingCatch (owner : String) (body : Except String (List PendingMessageSummary)) :
    PendingResponse :=
  match body with
  | .ok out => .success owner out.length out
  | .error e => .failure e

/-- The full `/pending` handler: fetch the owner's messages (page 1,
limit 50), run the loop, respond.  Every step of the embedded
orchestration is total, so the body never reaches the catch branch. -/
def pendingHandler (owner : String) (api : APIOutcome)
    (fetchHtml : String → Option String) (txBase : String) : PendingResponse :=
  pendingCatch owner (.ok (pendingLoop fetchHtml txBase (fetchMessagesByOwner api)))

/-! ## Shape of regex matches, and the spec's output formats -/

/-- A string of the shape matched by `/0x[0-9a-fA-F]{64,}/`: the
literal `0x` followed by 64 or more hex digits. -/
def isHexTokenB (h : List Char) : Bool :=
  match h with
  | c0 :: c1 :: run => c0 == '0' && c1 == 'x' && run.all isHexDigit && 64 ≤ run.length
  | _ => false

/-- Transcribed from the spec's words: "sender identifier as a 32-byte
hex string with `0x` prefix" — total length 66, `0x` then 64 hex
digits.  Spec-side format predicate, for comparison with what the code
actually emits. -/
def specIsHex32 (v : JSVal) : Bool :=
  match v with
  | .vStr s =>
    match s.data with
    | c0 :: c1 :: rest => c0 == '0' && c1 == 'x' && rest.all isHexDigit && rest.length == 64
    | _ => false
  | .vNum _ => false

/-- Transcribed from the spec's words: "payload as an even-length hex
string with `0x` prefix".  Spec-side format predicate. -/
def specIsEvenHex (v : JSVal) : Bool :=
  match v with
  | .vStr s =>
    match s.data with
    | c0 :: c1 :: rest => c0 == '0' && c1 == 'x' && rest.all isHexDigit && s.data.length % 2 == 0
    | _ => false
  | .vNum _ => false

/-! ## Concrete inputs used to instantiate the theorems -/

/-- A detail fetcher whose upstream is down: every fetch degrades to
`null`. -/
def fh0 : String → Option String := fun _ => none

def tb0 : String := "https://testnet.layerzeroscan.com/tx"

/-- A 66-character candidate: `0x` + 64 hex digits. -/
def tok66 : List Char := '0' :: 'x' :: List.replicate 64 'a'

/-- A 130-character candidate: `0x` + 128 hex digits. -/
def tok130 : List Char := '0' :: 'x' :: List.replicate 128 'b'

/-- A detail page containing one 66-char and one 130-char candidate. -/
def sampleDetail : List Char := tok66 ++ [' '] ++ tok130

/-- A detail fetcher that returns `sampleDetail` for every hash. -/
def fhHex : String → Option String := fun _ => some sampleDetail.asString

/-- Pending message whose nested executor status is lowercase
`"waiting"`, with structured sender and payload (no fallback fetch). -/
def mWaitingLower : RawMessage :=
  { executorResult := some { status := some "waiting" }
    srcTxHash := some "0xaaa"
    sender32 := some (JSVal.vStr "0xs")
    payload := some (JSVal.vStr "0xp") }

/-- Pending message whose structured sender/payload fields hold values
that are not well-formed hex strings. -/
def mBadSender : RawMessage :=
  { executorStatus := some "WAITING"
    srcTxHash := some "0xbb"
    sender32 := some (JSVal.vStr "zz")
    payload := some (JSVal.vNum 7) }

/-- Pending message with both sender and payload present as structured
fields. -/
def mBothStructured : RawMessage :=
  { executorStatus := some "WAITING"
    srcTxHash := some "0xdd"
    sender32 := some (JSVal.vStr "0xsender")
    payload := some (JSVal.vStr "0xpayload") }

/-- Pending message with no structured sender/payload: the fallback
fetch and hex heuristic must fill them. -/
def mNeedsFetch : RawMessage :=
  { executorStatus := some "WAITING"
    srcTxHash := some "0xee" }

/-- A second qualifying message, to observe output ordering. -/
def mSecondQual : RawMessage :=
  { executorStatus := some "WAITING"
    srcTxHash := some "0xff"
    sender32 := some (JSVal.vStr "0xs2")
    payload := some (JSVal.vStr "0xp2") }

/-- Message exercising the falsy fall-throughs: empty-string nested
status, empty-string `srcTxHash`, falsy sender fields, falsy leading
`dstEid` fields. -/
def mFalsyChain : RawMessage :=
  { executorResult := some { status := some "" }
    executorStatus := some "Waiting"
    srcTxHash := some ""
    txHash := some "0xcc"
    sender32 := some (JSVal.vStr "")
    sender := some (JSVal.vNum 0)
    dstEid := some (JSVal.vStr "")
    dst_eid := some (JSVal.vNum 0)
    dst := some (JSVal.vStr "40161") }

/-- Message whose three hash fields are all falsy: skipped entirely. -/
def mAllFalsyHash : RawMessage :=
  { executorStatus := some "WAITING"
    srcTxHash := some ""
    txHash := some ""
    tx := some { txHash := some "" } }

/-- The summary the loop emits for `mWaitingLower` (no fallback fetch
needed; the status label is carried through verbatim). -/
def sumWaitingLower : PendingMessageSummary :=
  { srcTxHash := "0xaaa", dstEid := none, sender32 := some (JSVal.vStr "0xs")
    payload := some (JSVal.vStr "0xp"), statusSummary := "waiting"
    lzTxPage := tb0 ++ "/0xaaa" }

/-- The summary the loop emits for `mBothStructured`. -/
def sumBoth : PendingMessageSummary :=
  { srcTxHash := "0xdd", dstEid := none, sender32 := some (JSVal.vStr "0xsender")
    payload := some (JSVal.vStr "0xpayload"), statusSummary := "WAITING"
    lzTxPage := tb0 ++ "/0xdd" }

/-- The summary the loop emits for `mSecondQual`. -/
def sumSecond : PendingMessageSummary :=
  { srcTxHash := "0xff", dstEid := none, sender32 := some (JSVal.vStr "0xs2")
    payload := some (JSVal.vStr "0xp2"), statusSummary := "WAITING"
    lzTxPage := tb0 ++ "/0xff" }

/-- The summary the loop emits for `mNeedsFetch` against `fhHex`: both
fields filled by the hex heuristic from the fetched detail page. -/
def sumNeedsFetch : PendingMessageSummary :=
  { srcTxHash := "0xee", dstEid := none
    sender32 := some (JSVal.vStr tok66.asString)
    payload := some (JSVal.vStr tok130.asString), statusSummary := "WAITING"
    lzTxPage := tb0 ++ "/0xee" }

/-! ## Helper lemmas -/

theorem find?_eq_filter_head? {α : Type} (p : α → Bool) (l : List α) :
    l.find? p = (l.filter p).head? := by
  induction l with
  | nil => rfl
  | cons a tl ih =>
    by_cases h : p a = true
    · rw [List.find?_cons_of_pos tl h, List.filter_cons_of_pos h, List.head?_cons]
    · have h' : ¬ p a = true := h
      rw [List.find?_cons_of_neg tl h', List.filter_cons_of_neg h', ih]

theorem filter_head?_mem {α : Type} {p : α → Bool} {l : List α} {x : α}
    (h : (l.filter p).head? = some x) : x ∈ l ∧ p x = true := by
  rw [← find?_eq_filter_head?] at h
  exact ⟨List.mem_of_find?_eq_some h, List.find?_some h⟩

theorem hexRun_le_length (l : List Char) : hexRun l ≤ l.length := by
  induction l with
  | nil => simp [hexRun]
  | cons c cs ih =>
    simp only [hexRun, List.length_cons]
    split <;> omega

theorem take_hexRun_all_hex (l : List Char) :
    (l.take (hexRun l)).all isHexDigit = true := by
  induction l with
  | nil => rfl
  | cons c cs ih =>
    simp only [hexRun]
    split
    · simp [List.take_succ_cons, List.all_cons, *]
    · simp

theorem length_take_hexRun (l : List Char) :
    (l.take (hexRun l)).length = hexRun l := by
  simp [List.length_take, Nat.min_eq_left (hexRun_le_length l)]

theorem scanHexesF_shape :
    ∀ (fuel : Nat) (s : List Char), ∀ h ∈ scanHexesF fuel s, isHexTokenB h = true := by
  intro fuel
  induction fuel with
  | zero => intro s h hh; simp [scanHexesF] at hh
  | succ n ih =>
    intro s h hh
    match s with
    | [] => simp [scanHexesF] at hh
    | c0 :: [] =>
      rw [scanHexesF] at hh
      exact ih _ _ hh
    | c0 :: c1 :: rest =>
      rw [scanHexesF] at hh
      by_cases hc : (c0 == '0' && c1 == 'x' && decide (64 ≤ hexRun rest)) = true
      · rw [if_pos hc] at hh
        simp only [Bool.and_eq_true, beq_iff_eq, decide_eq_true_eq] at hc
        obtain ⟨⟨h0, h1⟩, hr⟩ := hc
        rcases List.mem_cons.mp hh with heq | hmem
        · subst heq h0 h1
          have h2 := length_take_hexRun rest
          simp [isHexTokenB, take_hexRun_all_hex, h2]
          omega
        · exact ih _ _ hmem
      · rw [if_neg hc] at hh
        exact ih _ _ hh

theorem scanHexes_shape (s : List Char) : ∀ h ∈ scanHexes s, isHexTokenB h = true :=
  scanHexesF_shape s.length s

theorem mem_dedupFirstAux (x : List Char) :
    ∀ (l seen : List (List Char)), x ∈ dedupFirstAux seen l ↔ (x ∈ l ∧ x ∉ seen) := by
  intro l
  induction l with
  | nil => intro seen; simp [dedupFirstAux]
  | cons a tl ih =>
    intro seen
    by_cases ha : a ∈ seen
    · rw [dedupFirstAux, if_pos ha, ih]
      constructor
      · rintro ⟨hx, hns⟩; exact ⟨List.mem_cons_of_mem a hx, hns⟩
      · rintro ⟨hx, hns⟩
        rcases List.mem_cons.mp hx with rfl | hx
        · exact absurd ha hns
        · exact ⟨hx, hns⟩
    · rw [dedupFirstAux, if_neg ha]
      constructor
      · intro hx
        rcases List.mem_cons.mp hx with rfl | hx
        · exact ⟨List.mem_cons_self x tl, ha⟩
        · rcases (ih (a :: seen)).mp hx with ⟨hmem, hns⟩
          refine ⟨List.mem_cons_of_mem a hmem, fun hc => hns (List.mem_cons_of_mem a hc)⟩
      · rintro ⟨hx, hns⟩
        rcases List.mem_cons.mp hx with rfl | hx
        · exact List.mem_cons_self x _
        · by_cases hxa : x = a
          · subst hxa; exact List.mem_cons_self x _
          · exact List.mem_cons_of_mem a ((ih (a :: seen)).mpr
              ⟨hx, fun hc => (List.mem_cons.mp hc).elim hxa hns⟩)

theorem mem_dedupFirst {x : List Char} {l : List (List Char)} :
    x ∈ dedupFirst l ↔ x ∈ l := by
  rw [dedupFirst, mem_dedupFirstAux]
  simp

theorem dedupFirstAux_sublist :
    ∀ (l seen : List (List Char)), (dedupFirstAux seen l).Sublist l := by
  intro l
  induction l with
  | nil => intro seen; simp [dedupFirstAux]
  | cons a tl ih =>
    intro seen
    rw [dedupFirstAux]
    split
    · exact List.Sublist.cons a (ih seen)
    · exact List.Sublist.cons₂ a (ih (a :: seen))

theorem dedupFirstAux_nodup :
    ∀ (l seen : List (List Char)), (dedupFirstAux seen l).Nodup := by
  intro l
  induction l with
  | nil => intro seen; simp [dedupFirstAux]
  | cons a tl ih =>
    intro seen
    rw [dedupFirstAux]
    split
    · exact ih seen
    · refine List.nodup_cons.mpr ⟨fun hc => ?_, ih (a :: seen)⟩
      exact ((mem_dedupFirstAux a tl (a :: seen)).mp hc).2 (List.mem_cons_self a seen)

theorem guess_sender32_spec {t : List Char} {h : List Char}
    (hs : (guessHexesFromText t).sender32 = some h) :
    h.length = 66 ∧ isHexTokenB h = true := by
  unfold guessHexesFromText at hs
  simp only at hs
  obtain ⟨hmem, hpred⟩ := filter_head?_mem hs
  refine ⟨by simpa using hpred, scanHexes_shape t h (mem_dedupFirst.mp hmem)⟩

theorem guess_payload_spec {t : List Char} {h : List Char}
    (hs : (guessHexesFromText t).payload = some h) :
    66 < h.length ∧ h.length % 2 = 0 ∧ isHexTokenB h = true := by
  unfold guessHexesFromText at hs
  simp only at hs
  obtain ⟨hmem, hpred⟩ := filter_head?_mem hs
  simp only [Bool.and_eq_true, decide_eq_true_eq, beq_iff_eq] at hpred
  exact ⟨hpred.1, hpred.2, scanHexes_shape t h (mem_dedupFirst.mp hmem)⟩

theorem isHexTokenB_hex32 {h : List Char} (ht : isHexTokenB h = true)
    (hl : h.length = 66) : specIsHex32 (JSVal.vStr h.asString) = true := by
  match h with
  | [] => simp [isHexTokenB] at ht
  | [c] => simp [isHexTokenB] at ht
  | c0 :: c1 :: run =>
    simp only [isHexTokenB, Bool.and_eq_true, beq_iff_eq, decide_eq_true_eq] at ht
    obtain ⟨⟨⟨h0, h1⟩, hhex⟩, _⟩ := ht
    subst h0; subst h1
    simp only [List.length_cons] at hl
    simp [specIsHex32, List.asString, hhex]
    omega

theorem isHexTokenB_evenHex {h : List Char} (ht : isHexTokenB h = true)
    (he : h.length % 2 = 0) : specIsEvenHex (JSVal.vStr h.asString) = true := by
  match h with
  | [] => simp [isHexTokenB] at ht
  | [c] => simp [isHexTokenB] at ht
  | c0 :: c1 :: run =>
    simp only [isHexTokenB, Bool.and_eq_true, beq_iff_eq, decide_eq_true_eq] at ht
    obtain ⟨⟨⟨h0, h1⟩, hhex⟩, _⟩ := ht
    subst h0; subst h1
    simp [specIsEvenHex, List.asString, hhex]
    simpa using he

theorem pendingLoop_eq_filterMap (fh : String → Option String) (tb : String)
    (msgs : List RawMessage) :
    pendingLoop fh tb msgs = msgs.filterMap (fun m => (processMessage fh tb m).emitted) := by
  induction msgs with
  | nil => rfl
  | cons m rest ih =>
    rw [pendingLoop, List.filterMap_cons]
    cases (processMessage fh tb m).emitted <;> simp [ih]

theorem processMessage_some_inv (fh : String → Option String) (tb : String)
    (m : RawMessage) (s : PendingMessageSummary)
    (he : (processMessage fh tb m).emitted = some s) :
    ∃ st tx, resolveExecStatus m = some st ∧ strToUpper st = "WAITING" ∧
      resolveTxHash m = some tx := by
  unfold processMessage at he
  cases hst : resolveExecStatus m with
  | none => rw [hst] at he; simp at he
  | some st =>
    rw [hst] at he
    by_cases hw : strToUpper st = "WAITING"
    · cases htx : resolveTxHash m with
      | none => rw [htx] at he; simp [hw] at he
      | some tx => exact ⟨st, tx, rfl, hw, rfl⟩
    · simp only [bne_iff_ne, ne_eq, hw, not_false_eq_true, if_true] at he
      simp at he

theorem processMessage_char (fh : String → Option String) (tb : String)
    (m : RawMessage) (st tx : String)
    (hst : resolveExecStatus m = some st) (hw : strToUpper st = "WAITING")
    (htx : resolveTxHash m = some tx) :
    ∃ snd pld,
      processMessage fh tb m
        = ⟨some (mkSummary tb m tx st snd pld),
           (resolveSender m).isNone || (resolvePayload m).isNone⟩ ∧
      (∀ v, resolveSender m = some v → snd = some v) ∧
      (∀ v, resolvePayload m = some v → pld = some v) ∧
      (resolveSender m = none →
        snd = none ∨ ∃ html h, fh tx = some html ∧
          (guessHexesFromText html.data).sender32 = some h ∧
          snd = some (JSVal.vStr h.asString)) ∧
      (resolvePayload m = none →
        pld = none ∨ ∃ html h, fh tx = some html ∧
          (guessHexesFromText html.data).payload = some h ∧
          pld = some (JSVal.vStr h.asString)) := by
  unfold processMessage
  rw [hst]
  simp only [hw, bne_self_eq_false, Bool.false_eq_true, if_false]
  rw [htx]
  by_cases hneed : ((resolveSender m).isNone || (resolvePayload m).isNone) = true
  · cases hfh : fh tx with
    | none =>
      refine ⟨resolveSender m, resolvePayload m, ?_, fun v hv => hv, fun v hv => hv,
        fun hn => Or.inl hn, fun hn => Or.inl hn⟩
      simp [hneed, hfh]
    | some html =>
      refine ⟨fillField (resolveSender m) (guessHexesFromText html.data).sender32,
        fillField (resolvePayload m) (guessHexesFromText html.data).payload,
        ?_, ?_, ?_, ?_, ?_⟩
      · simp [hneed, hfh]
      · intro v hv
        simp [fillField, hv]
      · intro v hv
        simp [fillField, hv]
      · intro hn
        cases hg : (guessHexesFromText html.data).sender32 with
        | none => left; simp [fillField, hn, hg, truthyL]
        | some h =>
          right
          refine ⟨html, h, rfl, hg, ?_⟩
          have hne : h ≠ [] := by
            intro hnil
            have := (guess_sender32_spec hg).1
            simp [hnil] at this
          simp [fillField, hn, hg, truthyL, hne]
      · intro hn
        cases hg : (guessHexesFromText html.data).payload with
        | none => left; simp [fillField, hn, hg, truthyL]
        | some h =>
          right
          refine ⟨html, h, rfl, hg, ?_⟩
          have hne : h ≠ [] := by
            intro hnil
            have := (guess_payload_spec hg).1
            simp [hnil] at this
          simp [fillField, hn, hg, truthyL, hne]
  · have hor : ((resolveSender m).isNone || (resolvePayload m).isNone) = false := by
      revert hneed
      cases ((resolveSender m).isNone || (resolvePayload m).isNone) <;> simp
    refine ⟨resolveSender m, resolvePayload m, ?_,
      fun v hv => hv, fun v hv => hv,
      fun hn => absurd (by simp [hn]) (fun hc => hneed hc),
      fun hn => absurd (by simp [hn]) (fun hc => hneed hc)⟩
    simp [hneed, hor]

/-! ## Claim theorems -/

set_option maxRecDepth 20000

/-- C1: a summary is emitted for a raw message if and only if its
resolved executor status (nested `executorResult.status` probed before
flat `executorStatus`) uppercases to `"WAITING"` and its transaction
hash resolves to a non-empty value from `srcTxHash`, then `txHash`,
then `tx.txHash`; every other record yields no summary (and no error —
`processMessage` is total). -/
theorem pending_emit_iff_waiting_and_hash (fh : String → Option String)
    (tb : String) (m : RawMessage) :
    (processMessage fh tb m).emitted.isSome = true ↔
      ((∃ st, resolveExecStatus m = some st ∧ strToUpper st = "WAITING") ∧
       ∃ tx, resolveTxHash m = some tx) := by
  constructor
  · intro hs
    obtain ⟨s, hs'⟩ := Option.isSome_iff_exists.mp hs
    obtain ⟨st, tx, h1, h2, h3⟩ := processMessage_some_inv fh tb m s hs'
    exact ⟨⟨st, h1, h2⟩, ⟨tx, h3⟩⟩
  · rintro ⟨⟨st, hst, hw⟩, tx, htx⟩
    obtain ⟨snd, pld, heq, -⟩ := processMessage_char fh tb m st tx hst hw htx
    rw [heq]
    rfl

/-- C2: every match produced by the scan is `0x` followed by 64 or more
hex digits; the candidate list is deduplicated preserving first-seen
order (duplicate-free subsequence with the same members); `sender32` is
the first deduplicated candidate of total length exactly 66 and
`payload` the first of even total length exceeding 66, each `none` when
no candidate qualifies (`find?` semantics). -/
theorem guessHexes_spec (text : List Char) :
    ((scanHexes text).all isHexTokenB = true) ∧
    (dedupFirst (scanHexes text)).Nodup ∧
    (dedupFirst (scanHexes text)).Sublist (scanHexes text) ∧
    (∀ h : List Char, h ∈ dedupFirst (scanHexes text) ↔ h ∈ scanHexes text) ∧
    ((guessHexesFromText text).sender32
      = (dedupFirst (scanHexes text)).find? (fun h => h.length == 66)) ∧
    ((guessHexesFromText text).payload
      = (dedupFirst (scanHexes text)).find?
          (fun h => 66 < h.length && h.length % 2 == 0)) := by
  refine ⟨List.all_eq_true.mpr (scanHexes_shape text), dedupFirstAux_nodup _ _,
    dedupFirstAux_sublist _ _, fun h => mem_dedupFirst, ?_, ?_⟩
  · rw [find?_eq_filter_head?]
    rfl
  · rw [find?_eq_filter_head?]
    rfl

/-- C3: whenever both fields resolve, they are distinct strings —
`sender32` has length exactly 66, `payload` length strictly greater. -/
theorem guessHexes_sender_ne_payload (text s p : List Char)
    (hs : (guessHexesFromText text).sender32 = some s)
    (hp : (guessHexesFromText text).payload = some p) : s ≠ p := by
  obtain ⟨hls, -⟩ := guess_sender32_spec hs
  obtain ⟨hlp, -, -⟩ := guess_payload_spec hp
  intro h
  subst h
  omega

/-- C3 witness: on a concrete page holding a 66- and a 130-character
candidate, both fields resolve and differ. -/
theorem guessHexes_sender_ne_payload_witness :
    (guessHexesFromText sampleDetail).sender32 = some tok66 ∧
    (guessHexesFromText sampleDetail).payload = some tok130 ∧
    tok66 ≠ tok130 :=
  ⟨by decide, by decide,
    guessHexes_sender_ne_payload sampleDetail tok66 tok130 (by decide) (by decide)⟩

/-- C4 counterexample: the emitted `statusSummary` is the raw resolved
status, not uppercased — a message whose nested status is `"waiting"`
(with a resolvable hash) is emitted with `statusSummary = "waiting"`,
which differs from `"WAITING"`. -/
theorem statusSummary_not_uppercased_cex :
    (processMessage fh0 tb0 mWaitingLower).emitted.map PendingMessageSummary.statusSummary
      = some "waiting" ∧ "waiting" ≠ "WAITING" := by
  constructor
  · decide
  · decide

/-- C4 (amended): the emitted `statusSummary` equals the resolved
status string verbatim (original casing); only the *comparison* against
`"WAITING"` is case-insensitive, so the stored label always uppercases
to `"WAITING"` but need not equal it. -/
theorem statusSummary_raw_status (fh : String → Option String) (tb : String)
    (m : RawMessage) (s : PendingMessageSummary)
    (he : (processMessage fh tb m).emitted = some s) :
    resolveExecStatus m = some s.statusSummary ∧
    strToUpper s.statusSummary = "WAITING" := by
  obtain ⟨st, tx, hst, hw, htx⟩ := processMessage_some_inv fh tb m s he
  obtain ⟨snd, pld, heq, -⟩ := processMessage_char fh tb m st tx hst hw htx
  rw [heq] at he
  have hse : s = mkSummary tb m tx st snd pld := (Option.some.inj he).symm
  subst hse
  exact ⟨by rw [hst]; rfl, hw⟩

/-- C4 witness: instantiated at the lowercase-status message. -/
theorem statusSummary_raw_status_witness :
    resolveExecStatus mWaitingLower = some sumWaitingLower.statusSummary ∧
    strToUpper sumWaitingLower.statusSummary = "WAITING" :=
  statusSummary_raw_status fh0 tb0 mWaitingLower sumWaitingLower (by decide)

/-- C5 counterexample: structured fields are passed through without
validation — a qualifying message whose `sender32` field is the string
`"zz"` and whose `payload` field is the number `7` is emitted with
exactly those values, which satisfy neither spec format. -/
theorem structured_fields_unvalidated_cex :
    (processMessage fh0 tb0 mBadSender).emitted.map PendingMessageSummary.sender32
      = some (some (JSVal.vStr "zz")) ∧
    specIsHex32 (JSVal.vStr "zz") = false ∧
    (processMessage fh0 tb0 mBadSender).emitted.map PendingMessageSummary.payload
      = some (some (JSVal.vNum 7)) ∧
    specIsEvenHex (JSVal.vNum 7) = false := by
  refine ⟨by decide, by decide, by decide, by decide⟩

/-- C5 (amended): the format guarantee holds exactly for the values the
hex heuristic fills in — when a field is unresolved after probing the
structured fields, the emitted value is either `none` or a heuristic
candidate, which is a 32-byte `0x`-prefixed hex string (`sender32`)
resp. an even-length `0x`-prefixed hex string (`payload`); structured
field values are emitted as-is, unvalidated. -/
theorem heuristic_fields_wellformed (fh : String → Option String) (tb : String)
    (m : RawMessage) (s : PendingMessageSummary)
    (he : (processMessage fh tb m).emitted = some s) :
    (resolveSender m = none →
      s.sender32 = none ∨ ∃ str, s.sender32 = some (JSVal.vStr str) ∧
        specIsHex32 (JSVal.vStr str) = true) ∧
    (resolvePayload m = none →
      s.payload = none ∨ ∃ str, s.payload = some (JSVal.vStr str) ∧
        specIsEvenHex (JSVal.vStr str) = true) := by
  obtain ⟨st, tx, hst, hw, htx⟩ := processMessage_some_inv fh tb m s he
  obtain ⟨snd, pld, heq, hsv, hpv, hsn, hpn⟩ := processMessage_char fh tb m st tx hst hw htx
  rw [heq] at he
  have hse : s = mkSummary tb m tx st snd pld := (Option.some.inj he).symm
  subst hse
  constructor
  · intro hn
    rcases hsn hn with h0 | ⟨html, h, hfh, hg, hsnd⟩
    · left
      exact h0
    · right
      refine ⟨h.asString, hsnd, ?_⟩
      obtain ⟨hl, htok⟩ := guess_sender32_spec hg
      exact isHexTokenB_hex32 htok hl
  · intro hn
    rcases hpn hn with h0 | ⟨html, h, hfh, hg, hpld⟩
    · left
      exact h0
    · right
      refine ⟨h.asString, hpld, ?_⟩
      obtain ⟨-, hev, htok⟩ := guess_payload_spec hg
      exact isHexTokenB_evenHex htok hev

/-- C5 witness: on the message with no structured fields and a detail
page holding two candidates, both emitted fields are heuristic values
in the spec formats. -/
theorem heuristic_fields_wellformed_witness :
    (sumNeedsFetch.sender32 = none ∨ ∃ str, sumNeedsFetch.sender32 = some (JSVal.vStr str) ∧
      specIsHex32 (JSVal.vStr str) = true) ∧
    (sumNeedsFetch.payload = none ∨ ∃ str, sumNeedsFetch.payload = some (JSVal.vStr str) ∧
      specIsEvenHex (JSVal.vStr str) = true) := by
  have h := heuristic_fields_wellformed fhHex tb0 mNeedsFetch sumNeedsFetch (by decide)
  exact ⟨h.1 (by decide), h.2 (by decide)⟩

/-- C6: for a qualifying message the detail fetch happens exactly when
sender or payload is unresolved after probing structured fields (so
with both present it never happens), and an already-resolved value is
never overwritten by the fallback. -/
theorem detail_fetch_iff_unresolved (fh : String → Option String) (tb : String)
    (m : RawMessage) (st tx : String)
    (hst : resolveExecStatus m = some st) (hw : strToUpper st = "WAITING")
    (htx : resolveTxHash m = some tx) :
    ((processMessage fh tb m).fetchedDetail
      = ((resolveSender m).isNone || (resolvePayload m).isNone)) ∧
    (∀ v s, resolveSender m = some v →
      (processMessage fh tb m).emitted = some s → s.sender32 = some v) ∧
    (∀ v s, resolvePayload m = some v →
      (processMessage fh tb m).emitted = some s → s.payload = some v) := by
  obtain ⟨snd, pld, heq, hsv, hpv, -, -⟩ := processMessage_char fh tb m st tx hst hw htx
  refine ⟨by rw [heq], ?_, ?_⟩
  · intro v s hv he
    rw [heq] at he
    have hse : s = mkSummary tb m tx st snd pld := (Option.some.inj he).symm
    subst hse
    exact hsv v hv
  · intro v s hv he
    rw [heq] at he
    have hse : s = mkSummary tb m tx st snd pld := (Option.some.inj he).symm
    subst hse
    exact hpv v hv

/-- C6 witness: with both fields structured, the fetch is skipped even
against an oracle that would return a document, and the structured
sender value is carried through. -/
theorem detail_fetch_iff_unresolved_witness :
    ((processMessage fhHex tb0 mBothStructured).fetchedDetail
      = ((resolveSender mBothStructured).isNone || (resolvePayload mBothStructured).isNone)) ∧
    (processMessage fhHex tb0 mBothStructured).fetchedDetail = false ∧
    sumBoth.sender32 = some (JSVal.vStr "0xsender") := by
  have h := detail_fetch_iff_unresolved fhHex tb0 mBothStructured "WAITING" "0xdd"
    (by decide) (by decide) (by decide)
  exact ⟨h.1, by decide, h.2.1 (JSVal.vStr "0xsender") sumBoth (by decide) (by decide)⟩

/-- C7: the message fetcher never propagates a failure — a transport
error or non-success status yields `[]`; a successful response yields
its `messages` array when present, else `[]`. -/
theorem fetchMessages_degrades_to_empty :
    (fetchMessagesByOwner APIOutcome.transportError = []) ∧
    (∀ b, fetchMessagesByOwner (APIOutcome.response false b) = []) ∧
    (fetchMessagesByOwner (APIOutcome.response true none) = []) ∧
    (∀ ms, fetchMessagesByOwner (APIOutcome.response true (some ms)) = ms) :=
  ⟨rfl, fun _ => rfl, rfl, fun _ => rfl⟩

/-- C8: `/pending` always answers 200 with `{ ok:true, owner, count,
results }` where `count` is the length of `results`; in particular a
failed message-listing call still yields 200 with zero results; the 500
`{ ok:false, error }` shape arises exactly from a thrown orchestration
error reaching the catch. -/
theorem pending_response_shape (owner : String) (fh : String → Option String)
    (tb : String) :
    (∀ api, pendingHandler owner api fh tb
        = PendingResponse.success owner
            (pendingLoop fh tb (fetchMessagesByOwner api)).length
            (pendingLoop fh tb (fetchMessagesByOwner api)) ∧
      (pendingHandler owner api fh tb).status = 200) ∧
    (pendingHandler owner APIOutcome.transportError fh tb
        = PendingResponse.success owner 0 []) ∧
    (∀ e, pendingCatch owner (Except.error e) = PendingResponse.failure e ∧
      (pendingCatch owner (Except.error e)).status = 500) :=
  ⟨fun _ => ⟨rfl, rfl⟩, rfl, fun _ => ⟨rfl, rfl⟩⟩

/-- C9: the loop is a stable filter-map — emitted summaries appear in
the order of their qualifying source messages, with no re-sorting; in
particular two qualifying messages are emitted in input order. -/
theorem pending_order_stable (fh : String → Option String) (tb : String) :
    (∀ msgs, pendingLoop fh tb msgs
        = msgs.filterMap (fun m => (processMessage fh tb m).emitted)) ∧
    (∀ m1 m2 s1 s2, (processMessage fh tb m1).emitted = some s1 →
      (processMessage fh tb m2).emitted = some s2 →
      pendingLoop fh tb [m1, m2] = [s1, s2]) := by
  refine ⟨pendingLoop_eq_filterMap fh tb, ?_⟩
  intro m1 m2 s1 s2 h1 h2
  rw [pendingLoop_eq_filterMap]
  simp [List.filterMap_cons, h1, h2]

/-- C9 witness: two concrete qualifying messages come out in input
order. -/
theorem pending_order_stable_witness :
    pendingLoop fh0 tb0 [mBothStructured, mSecondQual] = [sumBoth, sumSecond] :=
  (pending_order_stable fh0 tb0).2 mBothStructured mSecondQual sumBoth sumSecond
    (by decide) (by decide)

/-- C10: every probing chain takes the first truthy value (empty
strings and zero are falsy, hence treated as absent): an empty
`srcTxHash` falls through to `txHash`, all-falsy hash fields skip the
record, an empty nested status falls through to `executorStatus`, falsy
structured sender fields count as unresolved and trigger the fallback
fetch, and `dstEid` resolves to the first truthy of
`dstEid`/`dst_eid`/`dst`. -/
theorem probe_first_truthy :
    (∀ (a : Option String) (rest : List (Option String)),
        probeS (a :: rest) = if truthyS a then a else probeS rest) ∧
    (∀ (a : Option JSVal) (rest : List (Option JSVal)),
        probeJ (a :: rest) = if truthyJ a then a else probeJ rest) ∧
    truthyS (some "") = false ∧
    truthyJ (some (JSVal.vStr "")) = false ∧
    truthyJ (some (JSVal.vNum 0)) = false ∧
    resolveExecStatus mFalsyChain = some "Waiting" ∧
    resolveTxHash mFalsyChain = some "0xcc" ∧
    (processMessage fh0 tb0 mFalsyChain).fetchedDetail = true ∧
    (processMessage fh0 tb0 mFalsyChain).emitted.map PendingMessageSummary.dstEid
      = some (some (JSVal.vStr "40161")) ∧
    (processMessage fh0 tb0 mAllFalsyHash).emitted = none :=
  ⟨fun _ _ => rfl, fun _ _ => rfl, by decide, by decide, by decide, by decide,
    by decide, by decide, by decide, by decide⟩

end Foom
